import Mathlib

/-!
Verification development for the pkgsite path/version resolution and
latest-version annotation core.

The Go sources embedded here:
* `internal/proxydatasource/details.go` — `GetLicenses`, `GetPathInfo`;
* `internal/frontend/directory.go` — `fetchDirectoryDetails`,
  `createDirectory`, `createDirectoryHeader`, `constructDirectoryURL`;
* `internal/middleware/latestversion_test.go` — the behaviour of the
  `LatestVersion` middleware (whose implementation file is not part of the
  excerpt; it is modelled from the design document, see the marked
  definitions below).

Go's `path` and `strings` helpers are embedded first, faithfully to the Go
standard library semantics the code relies on.
-/

namespace Pkgsite

/-! ## Go standard-library string and path helpers -/

/-- Raw prefix test on the underlying character lists (Go strings are byte
sequences; on valid UTF-8 the byte-level and character-level prefix tests
agree). -/
def isPrefixStr (pre s : String) : Bool :=
  pre.data.isPrefixOf s.data

/-- Go `strings.HasPrefix s pre`: raw string prefix test. -/
def hasPrefix (s pre : String) : Bool :=
  isPrefixStr pre s

/-- Go `strings.TrimPrefix s pre`: drop `pre` from the front of `s` when it is
a prefix, otherwise return `s` unchanged. -/
def trimPrefix (s pre : String) : String :=
  if isPrefixStr pre s then String.mk (s.data.drop pre.data.length) else s

/-- Split a character list on a separator character (Go
`strings.Split(s, sep)` for a one-character separator). -/
def splitOnChar (c : Char) : List Char → List (List Char)
  | [] => [[]]
  | x :: xs =>
    let r := splitOnChar c xs
    if x = c then [] :: r
    else
      match r with
      | [] => [[x]]
      | h :: t => (x :: h) :: t

/-- Join character lists with a separator character (the inverse of
`splitOnChar`, Go `strings.Join`). -/
def joinChar (c : Char) : List (List Char) → List Char
  | [] => []
  | [e] => e
  | e :: es => e ++ c :: joinChar c es

/-- The element-processing core of Go `path.Clean`: drop empty and `"."`
elements, let `".."` pop the previous element (except that leading `".."`s
are kept on a relative path and dropped on a rooted one). `acc` holds the
already-processed elements in reverse. -/
def cleanCore (rooted : Bool) : List String → List String → List String
  | acc, [] => acc.reverse
  | acc, e :: es =>
    if e = "" ∨ e = "." then cleanCore rooted acc es
    else if e = ".." then
      match acc with
      | [] => if rooted then cleanCore rooted [] es else cleanCore rooted [".."] es
      | a :: rest =>
        if a = ".." then cleanCore rooted (".." :: a :: rest) es
        else cleanCore rooted rest es
    else cleanCore rooted (e :: acc) es

/-- Go `path.Clean`: the shortest path name equivalent to `p` by purely
lexical processing. -/
def pathClean (p : String) : String :=
  if p = "" then "."
  else
    let rooted := match p.data with | '/' :: _ => true | _ => false
    let elems := cleanCore rooted [] ((splitOnChar '/' p.data).map String.mk)
    let joined := String.mk (joinChar '/' (elems.map String.data))
    if rooted then "/" ++ joined
    else if joined = "" then "." else joined

/-- The characters of `p` up to and including its final `'/'` (empty when `p`
has no slash) — the `dir` part of Go `path.Split`. -/
def dirPart (cs : List Char) : List Char :=
  (cs.reverse.dropWhile (fun c => c ≠ '/')).reverse

/-- Go `path.Dir`: all but the last element of `p`, cleaned; `"."` when `p`
contains no slash. -/
def pathDir (p : String) : String :=
  pathClean (String.mk (dirPart p.data))

/-- Go `path.Join` on two elements: drop empty arguments, join the rest with
`"/"` and clean; the empty string when both are empty. -/
def pathJoin (a b : String) : String :=
  let parts := [a, b].filter (fun s => s ≠ "")
  if parts = [] then ""
  else pathClean (String.mk (joinChar '/' (parts.map String.data)))

/-! ## Shared constants and error model

`derrors` tags errors with a kind that survives wrapping; `errors.Is`
against a `derrors` sentinel is modelled as comparing the kind. -/

inductive ErrKind : Type
  | notFound
  | invalidArgument
  | unsupported
  | internalError
  deriving DecidableEq, Repr

structure Err where
  kind : ErrKind
  msg : String
  deriving DecidableEq, Repr

/-- The constant `internal.LatestVersion`, the "latest" pseudo-version sentinel. -/
def latestVersion : String := "latest"

/-- Modelled from the spec: the unknown-module sentinel value of
`internal.UnknownModulePath` (its defining file is outside the excerpt; the
spec calls it the "unknown" sentinel for a module path). -/
def unknownModulePath : String := "unknown"

/-- Modelled from the spec: `stdlib.ModulePath`, the standard-library
pseudo-module path (its defining file is outside the excerpt). -/
def stdlibModulePath : String := "std"

/-! ## Data model (`internal` package records used by the excerpt) -/

structure ModuleInfo where
  modulePath : String
  version : String
  deriving DecidableEq, Repr

structure License where
  filePath : String
  deriving DecidableEq, Repr

structure UnitRec where
  path : String
  name : String
  isRedistributable : Bool
  deriving DecidableEq, Repr

structure Module where
  moduleInfo : ModuleInfo
  licenses : List License
  units : List UnitRec
  deriving DecidableEq, Repr

structure PathInfo where
  path : String
  modulePath : String
  version : String
  name : String
  isRedistributable : Bool
  deriving DecidableEq, Repr

structure VersionInfo where
  version : String
  deriving DecidableEq, Repr

/-! ## proxydatasource (`internal/proxydatasource/details.go`)

The data source's private helpers `findModule` and `getModule` are outside
the excerpt; they are capabilities of the `DataSource` value, modelled as
function-valued fields. -/

structure ProxyDataSource where
  findModule : String → String → Except Err (String × VersionInfo)
  getModule : String → String → Except Err Module

/-- The retention test of `GetLicenses`: the Go code keeps `license` when
`strings.HasPrefix(fullPath, path.Join(modulePath, path.Dir(license.FilePath)))`. -/
def licenseApplies (fullPath modulePath : String) (license : License) : Bool :=
  hasPrefix fullPath (pathJoin modulePath (pathDir license.filePath))

/-- Embedding of `GetLicenses` of `internal/proxydatasource/details.go`: fetch the module,
keep the licenses passing `licenseApplies`, and fail with a NotFound error
naming the path and module when none remain. -/
def GetLicenses (ds : ProxyDataSource) (fullPath modulePath resolvedVersion : String) :
    Except Err (List License) :=
  match ds.getModule modulePath resolvedVersion with
  | Except.error e => Except.error e
  | Except.ok v =>
    let lics := v.licenses.filter (licenseApplies fullPath modulePath)
    if lics = [] then
      Except.error
        { kind := ErrKind.notFound
          msg := "path " ++ fullPath ++ " is missing from module " ++ modulePath }
    else
      Except.ok lics

/-- The module-resolution step of `GetPathInfo` of
`internal/proxydatasource/details.go`: an unknown module path is discovered
through `findModule` (whose version overrides the requested one, and whose
failure is returned); a known one passes through with the requested
version. -/
def resolveModule (ds : ProxyDataSource) (path inModulePath inVersion : String) :
    Except Err (String × String) :=
  if inModulePath = unknownModulePath then
    match ds.findModule path inVersion with
    | Except.error e => Except.error e
    | Except.ok r => Except.ok (r.1, r.2.version)
  else
    Except.ok (inModulePath, inVersion)

/-- Embedding of `GetPathInfo` of `internal/proxydatasource/details.go`: resolve the
module (see `resolveModule`), fetch it, and fill `name` and
`isRedistributable` from the first unit whose path matches (zero values
otherwise). -/
def GetPathInfo (ds : ProxyDataSource) (path inModulePath inVersion : String) :
    Except Err PathInfo :=
  match resolveModule ds path inModulePath inVersion with
  | Except.error e => Except.error e
  | Except.ok resolved =>
    match ds.getModule resolved.1 resolved.2 with
    | Except.error e => Except.error e
    | Except.ok m =>
      let base : PathInfo :=
        { path := path, modulePath := resolved.1, version := resolved.2
          name := "", isRedistributable := false }
      match m.units.find? (fun d => d.path = path) with
      | some d =>
        Except.ok { base with name := d.name, isRedistributable := d.isRedistributable }
      | none => Except.ok base

/-! ## Spec-side path predicates (for comparison with the code) -/

/-- The spec's ancestor-or-equal relation between a directory and a path:
`p` is the directory `d` itself or lies nested beneath it. -/
def specAncestorOrEqual (d p : String) : Bool :=
  p = d || isPrefixStr (d ++ "/") p

/-- The spec's containment invariant on a resolved `PathInfo`: `path` equals
`modulePath` or starts with `modulePath ++ "/"`. -/
def specContained (p m : String) : Bool :=
  p = m || isPrefixStr (m ++ "/") p

/-! ## frontend (`internal/frontend/directory.go`) -/

structure PackageMeta where
  path : String
  name : String
  synopsis : String
  deriving DecidableEq, Repr

structure Package where
  path : String
  name : String
  synopsis : String
  pathAfterDirectory : String
  deriving DecidableEq, Repr

structure LicenseMetadata where
  filePath : String
  deriving DecidableEq, Repr

/-- Modelled from the spec: `linkVersion` (defined outside the excerpt)
renders a resolved version for use in links. -/
def linkVersion (v _modulePath : String) : String := v

/-- Modelled from the spec: the module-identity part of a directory header
(`createModule`, defined outside the excerpt): module identity plus its
license metadata. -/
structure ModuleView where
  modulePath : String
  linkedVersion : String
  licenses : List LicenseMetadata
  deriving DecidableEq, Repr

/-- Modelled from the spec: `createModule` (defined outside the excerpt)
assembles the module-identity view record from `ModuleInfo` and license
metadata. -/
def createModule (mi : ModuleInfo) (licmetas : List LicenseMetadata) : ModuleView :=
  { modulePath := mi.modulePath
    linkedVersion := linkVersion mi.version mi.modulePath
    licenses := licmetas }

/-- Modelled from the spec: `internal.Suffix` (defined outside the excerpt)
strips the directory prefix from a package path — empty when the path equals
the directory. -/
def suffix (p dirPath : String) : String :=
  trimPrefix (trimPrefix p dirPath) "/"

/-- Modelled from the spec: `effectiveName` (defined outside the excerpt)
falls back to a name derived from the path when the declared name is empty. -/
def effectiveName (p name : String) : String :=
  if name ≠ "" then name
  else String.mk ((splitOnChar '/' p.data).getLastD p.data)

structure DirectoryHeader where
  module : ModuleView
  path : String
  url : String
  deriving DecidableEq, Repr

structure Directory where
  header : DirectoryHeader
  packages : List Package
  deriving DecidableEq, Repr

/-- The record `DirectoryMeta` of the excerpt: the directory path together with its
module's info and license metadata (the embedded `ModuleInfo` supplies
`ModulePath` and `Version`). -/
structure DirectoryMeta where
  path : String
  moduleInfo : ModuleInfo
  licenses : List LicenseMetadata
  deriving DecidableEq, Repr

/-- Embedding of `constructDirectoryURL` of `internal/frontend/directory.go`. -/
def constructDirectoryURL (dirPath modulePath linkVer : String) : String :=
  if linkVer = latestVersion then
    "/" ++ dirPath
  else if dirPath = modulePath ∨ modulePath = stdlibModulePath then
    "/" ++ dirPath ++ "@" ++ linkVer
  else
    "/" ++ modulePath ++ "@" ++ linkVer ++ "/" ++ trimPrefix dirPath (modulePath ++ "/")

/-- Embedding of `createDirectoryHeader` of `internal/frontend/directory.go`. -/
def createDirectoryHeader (dirPath : String) (mi : ModuleInfo)
    (licmetas : List LicenseMetadata) : DirectoryHeader :=
  { module := createModule mi licmetas
    path := dirPath
    url := constructDirectoryURL dirPath mi.modulePath (linkVersion mi.version mi.modulePath) }

/-- The loop body of `createDirectory`: build the view `Package` for one
`PackageMeta` (via the spec-modelled `createPackage`, which copies the
listing fields), then set `PathAfterDirectory` — substituting the
`"<effective-name> (root)"` label when the suffix is empty — and `Synopsis`. -/
def buildPackage (dirPath : String) (pm : PackageMeta) : Package :=
  let pad := suffix pm.path dirPath
  { path := pm.path
    name := pm.name
    synopsis := pm.synopsis
    pathAfterDirectory :=
      if pad = "" then effectiveName pm.path pm.name ++ " (root)" else pad }

/-- The skip test of `createDirectory`: a package is kept unless
`includeDirPath` is false and its path equals `dirPath`. -/
def keepPackage (includeDirPath : Bool) (dirPath : String) (pm : PackageMeta) : Bool :=
  includeDirPath || pm.path != dirPath

/-- The comparison `createDirectory` sorts by: ascending package path
(`sort.Slice` with `packages[i].Path < packages[j].Path`, i.e. any
permutation that is nondecreasing in `path`; embedded as insertion sort). -/
def pkgLE (a b : Package) : Prop := a.path ≤ b.path

instance : DecidableRel pkgLE := fun a b => inferInstanceAs (Decidable (a.path ≤ b.path))

instance : IsTotal Package pkgLE := ⟨fun a b => le_total a.path b.path⟩

instance : IsTrans Package pkgLE := ⟨fun _ _ _ h h' => le_trans h h'⟩

/-- Embedding of `createDirectory` of `internal/frontend/directory.go`: filter out the
directory's own package when `includeDirPath` is false, build the view
packages, sort them by path, and attach the directory header. -/
def createDirectory (dirPath : String) (mi : ModuleInfo) (pkgMetas : List PackageMeta)
    (licmetas : List LicenseMetadata) (includeDirPath : Bool) : Except Err Directory :=
  let packages :=
    (pkgMetas.filter (keepPackage includeDirPath dirPath)).map (buildPackage dirPath)
  Except.ok
    { header := createDirectoryHeader dirPath mi licmetas
      packages := packages.insertionSort pkgLE }

/-- The error `proxydatasourceNotSupportedErr` (defined outside the excerpt); modelled
from the spec: directory assembly over the proxy-backed source fails with an
"unsupported" feature-unavailability error. -/
def proxydatasourceNotSupportedErr : Err :=
  { kind := ErrKind.unsupported
    msg := "this page is not supported by the proxydatasource" }

/-- The `internal.DataSource` seen by `fetchDirectoryDetails`: either the
postgres-backed implementation (carrying its `GetPackagesInUnit` capability)
or any other implementation (the type assertion `ds.(*postgres.DB)` fails). -/
inductive FrontendDS : Type
  | postgres (getPackagesInUnit : String → String → String → Except Err (List PackageMeta))
  | proxy

/-- Embedding of `fetchDirectoryDetails` of `internal/frontend/directory.go`. -/
def fetchDirectoryDetails (ds : FrontendDS) (dmeta : DirectoryMeta)
    (includeDirPath : Bool) : Except Err Directory :=
  match ds with
  | FrontendDS.proxy => Except.error proxydatasourceNotSupportedErr
  | FrontendDS.postgres getPackagesInUnit =>
    if includeDirPath && dmeta.path != dmeta.moduleInfo.modulePath
        && dmeta.path != stdlibModulePath then
      Except.error
        { kind := ErrKind.invalidArgument
          msg := "includeDirPath can only be set to true if dirPath = modulePath" }
    else
      match getPackagesInUnit dmeta.path dmeta.moduleInfo.modulePath dmeta.moduleInfo.version with
      | Except.error e =>
        if e.kind ≠ ErrKind.notFound then Except.error e
        else
          Except.ok
            { header := createDirectoryHeader dmeta.path dmeta.moduleInfo dmeta.licenses
              packages := [] }
      | Except.ok packages =>
        createDirectory dmeta.path dmeta.moduleInfo packages dmeta.licenses includeDirPath

/-! ## middleware (`internal/middleware/latestversion_test.go`)

The `LatestVersion` middleware implementation file is not part of the
excerpt; only its test is. The per-badge rewrite is modelled from the
design document (§4.4) and the fixed strings appearing in the test. -/

/-- The numeric value of a list of decimal digit characters. -/
def digitsToNat (ds : List Char) : Nat :=
  ds.foldl (fun n c => n * 10 + (c.toNat - 48)) 0

/-- Modelled from the spec: decoding of one decimal numeric character
reference `&#NN;` at the head of a character list (the entity form the
upstream renderer uses for attribute values, e.g. `&#43;` for `'+'`). -/
def parseEntity (cs : List Char) : Option (Char × List Char) :=
  match cs with
  | a :: b :: tail =>
    if a = '&' ∧ b = '#' then
      let ds := tail.takeWhile Char.isDigit
      match tail.drop ds.length with
      | ';' :: more =>
        if ds.isEmpty then none else some (Char.ofNat (digitsToNat ds), more)
      | _ => none
    else none
  | _ => none

/-- Fuelled scan decoding every numeric character reference in a character
list (the fuel, one unit per input character, bounds the recursion). -/
def unescapeAux : Nat → List Char → List Char
  | 0, cs => cs
  | _, [] => []
  | fuel + 1, c :: rest =>
    match parseEntity (c :: rest) with
    | some (d, more) => d :: unescapeAux fuel more
    | none => c :: unescapeAux fuel rest

/-- Modelled from the spec: HTML-entity decoding of an attribute value, as
applied to the requested version before comparing it with the lookup
result. -/
def htmlUnescape (s : String) : String :=
  String.mk (unescapeAux s.data.length s.data)

/-- Modelled from the spec: the classification of a requested version
against the latest-lookup result (§4.4: empty lookup → Unknown; equal →
Latest; otherwise NotLatest). -/
inductive VersionClass : Type
  | latest
  | notLatest
  | unknown
  deriving DecidableEq, Repr

/-- The VersionClassifier decision order of §4.4. -/
def classifyVersion (requested latestVer : String) : VersionClass :=
  if latestVer = "" then VersionClass.unknown
  else if latestVer = requested then VersionClass.latest
  else VersionClass.notLatest

/-- Modelled from the spec: the three fixed badge CSS class names the
middleware substitutes for the class placeholder (spellings as asserted by
the test file). -/
def classNameFor : VersionClass → String
  | VersionClass.latest => "DetailsHeader-badge--latest"
  | VersionClass.notLatest => "DetailsHeader-badge--goToLatest"
  | VersionClass.unknown => "DetailsHeader-badge--unknown"

/-- One matched badge element: the four data attributes the middleware
extracts (`data-version` as written in the HTML, possibly entity-escaped;
`data-mpath`; `data-ppath`; `data-pagetype`). -/
structure Badge where
  requestedVersion : String
  modulePath : String
  dirPath : String
  pageType : String
  deriving DecidableEq, Repr

/-- Modelled from the spec: the per-badge rewrite of the `LatestVersion`
middleware. Given the latest-lookup capability and a matched badge, it
returns the string substituted for the CSS-class placeholder and the string
substituted for the version-value placeholder inside the badge's link. -/
def processBadge (lookup : String → String → String → String) (b : Badge) :
    String × String :=
  let latestVer := lookup b.dirPath b.modulePath b.pageType
  (classNameFor (classifyVersion (htmlUnescape b.requestedVersion) latestVer), latestVer)

/-! ## Concrete fixtures used by the theorems -/

def c1License : License := { filePath := "a/LICENSE" }

def c1Module : Module :=
  { moduleInfo := { modulePath := "m", version := "v1.0.0" }
    licenses := [c1License]
    units := [] }

def c1DS : ProxyDataSource :=
  { findModule := fun _ _ => Except.error { kind := ErrKind.notFound, msg := "" }
    getModule := fun mp ver =>
      if mp = "m" ∧ ver = "v1.0.0" then Except.ok c1Module
      else Except.error { kind := ErrKind.notFound, msg := "" } }

def c4Module : Module :=
  { moduleInfo := { modulePath := "m", version := "v1" }
    licenses := []
    units := [{ path := "m/p", name := "p", isRedistributable := true }] }

def c4DS : ProxyDataSource :=
  { findModule := fun p _ =>
      if p = "m/p" then Except.ok ("m", { version := "v1" })
      else Except.error { kind := ErrKind.notFound, msg := "" }
    getModule := fun mp ver =>
      if mp = "m" ∧ ver = "v1" then Except.ok c4Module
      else Except.error { kind := ErrKind.notFound, msg := "" } }

/-- The `PathInfo` that `GetPathInfo c4DS "m/p" "m" "v1"` returns. -/
def c4PathInfo : PathInfo :=
  { path := "m/p", modulePath := "m", version := "v1", name := "p",
    isRedistributable := true }

def c5Module : Module :=
  { moduleInfo := { modulePath := "foo", version := "v1" }
    licenses := []
    units := [] }

def c5DS : ProxyDataSource :=
  { findModule := fun _ _ => Except.error { kind := ErrKind.notFound, msg := "" }
    getModule := fun mp ver =>
      if mp = "foo" ∧ ver = "v1" then Except.ok c5Module
      else Except.error { kind := ErrKind.notFound, msg := "" } }

/-! ## Helper lemmas -/

/-- A known module path passes through resolution with the requested
version. -/
theorem resolveModule_known (ds : ProxyDataSource) (p mp v : String)
    (h : mp ≠ unknownModulePath) :
    resolveModule ds p mp v = Except.ok (mp, v) := by
  unfold resolveModule
  rw [if_neg h]

/-- Any successful `GetPathInfo` copies the requested path and the resolved
module path and version into the result verbatim. -/
theorem getPathInfo_ok_shape (ds : ProxyDataSource) (p mp0 v0 : String) (pi : PathInfo)
    (h : GetPathInfo ds p mp0 v0 = Except.ok pi) :
    ∃ mp ver, resolveModule ds p mp0 v0 = Except.ok (mp, ver)
      ∧ pi.path = p ∧ pi.modulePath = mp ∧ pi.version = ver := by
  unfold GetPathInfo at h
  split at h
  · simp at h
  · rename_i resolved heq
    dsimp only at h
    split at h
    · simp at h
    · split at h
      · injection h with h'
        exact ⟨resolved.1, resolved.2, heq, by rw [← h']; exact ⟨rfl, rfl, rfl⟩⟩
      · injection h with h'
        exact ⟨resolved.1, resolved.2, heq, by rw [← h']; exact ⟨rfl, rfl, rfl⟩⟩

/-! ## Claims -/

/-- C1: `GetLicenses` is claimed to retain a license iff
`join(modulePath, dir(L.FilePath))` is the requested path or a directory
ancestor of it. The code instead uses a raw `strings.HasPrefix` test, which
also matches across a path-component boundary: for `fullPath = "m/ab"`,
`modulePath = "m"` and a license at `"a/LICENSE"`, the license directory
`"m/a"` is not an ancestor-or-equal of `"m/ab"`, yet the license is
retained — contradicting the code's own comment ("A license in the current
or any parent directory of the specified fullPath applies to it"). -/
theorem GetLicenses_retains_nonAncestor_license :
    GetLicenses c1DS "m/ab" "m" "v1.0.0" = Except.ok [c1License]
    ∧ specAncestorOrEqual (pathJoin "m" (pathDir c1License.filePath)) "m/ab" = false := by
  constructor
  · rfl
  · rfl

/-- C2: for every matched badge, the per-badge rewrite substitutes the
`unknown` class when the lookup result is empty, the `latest` class when it
is non-empty and equals the entity-decoded requested version, the
`goToLatest` class when it is non-empty and differs; and it substitutes the
literal lookup result (possibly empty) for the version placeholder. -/
theorem processBadge_classification (lookup : String → String → String → String) (b : Badge) :
    ((lookup b.dirPath b.modulePath b.pageType = "" →
        (processBadge lookup b).1 = "DetailsHeader-badge--unknown")
      ∧ (lookup b.dirPath b.modulePath b.pageType ≠ "" →
          lookup b.dirPath b.modulePath b.pageType = htmlUnescape b.requestedVersion →
          (processBadge lookup b).1 = "DetailsHeader-badge--latest")
      ∧ (lookup b.dirPath b.modulePath b.pageType ≠ "" →
          lookup b.dirPath b.modulePath b.pageType ≠ htmlUnescape b.requestedVersion →
          (processBadge lookup b).1 = "DetailsHeader-badge--goToLatest"))
    ∧ (processBadge lookup b).2 = lookup b.dirPath b.modulePath b.pageType := by
  refine ⟨⟨?_, ?_, ?_⟩, rfl⟩
  · intro h
    simp [processBadge, classifyVersion, classNameFor, h]
  · intro h h'
    rw [h'] at h
    simp [processBadge, classifyVersion, classNameFor, h', h]
  · intro h h'
    simp [processBadge, classifyVersion, classNameFor, h, h']

/-- Witness for C2 at the test's entity-escaped input: the requested version
is written `v1.2.3&#43;build`, the lookup returns `v1.2.3+build`, and the
badge is classified latest with the literal lookup result substituted. -/
theorem processBadge_classification_witness :
    (processBadge (fun _ _ _ => "v1.2.3+build")
        { requestedVersion := "v1.2.3&#43;build", modulePath := "p1/p2"
          dirPath := "p1/p2/p3", pageType := "pkg" }).1 = "DetailsHeader-badge--latest"
    ∧ (processBadge (fun _ _ _ => "v1.2.3+build")
        { requestedVersion := "v1.2.3&#43;build", modulePath := "p1/p2"
          dirPath := "p1/p2/p3", pageType := "pkg" }).2 = "v1.2.3+build" := by
  have h := processBadge_classification (fun _ _ _ => "v1.2.3+build")
    { requestedVersion := "v1.2.3&#43;build", modulePath := "p1/p2"
      dirPath := "p1/p2/p3", pageType := "pkg" }
  exact ⟨h.1.2.1 (by decide) (by decide), h.2⟩

/-- C3: `constructDirectoryURL` returns `"/" ++ dirPath` for the latest
pseudo-version; `"/" ++ dirPath ++ "@" ++ linkVer` at a module root or for
the standard library; and otherwise attaches the version after the module
segment with the directory suffix appended. -/
theorem constructDirectoryURL_cases (dirPath modulePath linkVer : String) :
    (linkVer = latestVersion →
      constructDirectoryURL dirPath modulePath linkVer = "/" ++ dirPath)
    ∧ (linkVer ≠ latestVersion →
        (dirPath = modulePath ∨ modulePath = stdlibModulePath) →
        constructDirectoryURL dirPath modulePath linkVer = "/" ++ dirPath ++ "@" ++ linkVer)
    ∧ (linkVer ≠ latestVersion → dirPath ≠ modulePath → modulePath ≠ stdlibModulePath →
        constructDirectoryURL dirPath modulePath linkVer =
          "/" ++ modulePath ++ "@" ++ linkVer ++ "/" ++ trimPrefix dirPath (modulePath ++ "/")) := by
  refine ⟨?_, ?_, ?_⟩
  · intro h
    simp [constructDirectoryURL, h]
  · intro h h'
    simp [constructDirectoryURL, h, h']
  · intro h h' h''
    simp [constructDirectoryURL, h, h', h'']

/-- Witness for C3 on a non-root directory of a concrete module. -/
theorem constructDirectoryURL_cases_witness :
    constructDirectoryURL "a/b" "a" "v1.2.3" = "/a@v1.2.3/b" := by
  have h := (constructDirectoryURL_cases "a/b" "a" "v1.2.3").2.2
    (by decide) (by decide) (by decide)
  rw [h]
  decide

/-- C4: `GetPathInfo` propagates a `findModule` failure when the module path
is the unknown sentinel; on discovery the discovered module path and version
are returned; for a concrete module path the result carries exactly the
requested module path and version; and (given that discovery returns a
concrete module path, the external capability's contract) no success carries
the sentinel. -/
theorem GetPathInfo_resolution (ds : ProxyDataSource) :
    (∀ p v e, ds.findModule p v = Except.error e →
      GetPathInfo ds p unknownModulePath v = Except.error e)
    ∧ (∀ p v mp vi pi, ds.findModule p v = Except.ok (mp, vi) →
      GetPathInfo ds p unknownModulePath v = Except.ok pi →
      pi.modulePath = mp ∧ pi.version = vi.version)
    ∧ (∀ p m v pi, m ≠ unknownModulePath →
      GetPathInfo ds p m v = Except.ok pi →
      pi.modulePath = m ∧ pi.version = v)
    ∧ ((∀ p v mp vi, ds.findModule p v = Except.ok (mp, vi) → mp ≠ unknownModulePath) →
      ∀ p m v pi, GetPathInfo ds p m v = Except.ok pi →
      pi.modulePath ≠ unknownModulePath) := by
  refine ⟨?_, ?_, ?_, ?_⟩
  · intro p v e h
    unfold GetPathInfo resolveModule
    rw [if_pos rfl, h]
  · intro p v mp vi pi hf h
    rcases getPathInfo_ok_shape ds p unknownModulePath v pi h with ⟨mp', ver', hr', _, hm, hv⟩
    unfold resolveModule at hr'
    rw [if_pos rfl, hf] at hr'
    injection hr' with h'
    injection h' with ha hb
    rw [hm, hv]
    exact ⟨ha.symm, hb.symm⟩
  · intro p m v pi hm h
    rcases getPathInfo_ok_shape ds p m v pi h with ⟨mp', ver', hr', _, hmp, hv⟩
    rw [resolveModule_known ds p m v hm] at hr'
    injection hr' with h'
    injection h' with ha hb
    rw [hmp, hv]
    exact ⟨ha.symm, hb.symm⟩
  · intro hfm p m v pi h
    rcases getPathInfo_ok_shape ds p m v pi h with ⟨mp', ver', hr', _, hmp, _⟩
    by_cases hu : m = unknownModulePath
    · subst hu
      unfold resolveModule at hr'
      rw [if_pos rfl] at hr'
      cases hff : ds.findModule p v with
      | error e => rw [hff] at hr'; simp at hr'
      | ok r =>
        rw [hff] at hr'
        injection hr' with h'
        injection h' with ha _
        have : r.1 ≠ unknownModulePath := hfm p v r.1 r.2 hff
        rw [hmp, ← ha]
        exact this
    · rw [resolveModule_known ds p m v hu] at hr'
      injection hr' with h'
      injection h' with ha _
      rw [hmp, ← ha]
      exact hu

/-- Witness for C4 at a concrete data source: a request with concrete module
path `"m"` and version `"v1"` resolves to exactly those. -/
theorem GetPathInfo_resolution_witness :
    c4PathInfo.modulePath = "m" ∧ c4PathInfo.version = "v1" :=
  (GetPathInfo_resolution c4DS).2.2.1 "m/p" "m" "v1" c4PathInfo (by decide) rfl

/-- Counterexample for C5: `GetPathInfo` performs no containment check: with
a data source holding module `"foo"` at `"v1"`, requesting path `"bar"` in
module `"foo"` succeeds, yet `"bar"` is not contained in `"foo"` and
`"foo"` is not the standard-library pseudo-module. -/
theorem GetPathInfo_no_containment_check :
    GetPathInfo c5DS "bar" "foo" "v1" =
      Except.ok { path := "bar", modulePath := "foo", version := "v1", name := "",
                  isRedistributable := false }
    ∧ specContained "bar" "foo" = false
    ∧ ("foo" : String) ≠ stdlibModulePath := by
  refine ⟨rfl, rfl, by decide⟩

/-- C5 (amended): a successful `GetPathInfo` copies the requested path
verbatim, so its result satisfies the containment invariant exactly when
the requested path is contained in the resolved module path; under that
containment precondition the invariant holds. -/
theorem GetPathInfo_containment_of_contained (ds : ProxyDataSource)
    (p mp0 v0 : String) (pi : PathInfo)
    (h : GetPathInfo ds p mp0 v0 = Except.ok pi)
    (hc : specContained p pi.modulePath = true) :
    specContained pi.path pi.modulePath = true := by
  rcases getPathInfo_ok_shape ds p mp0 v0 pi h with ⟨mp, ver, _, hp, _, _⟩
  rw [hp]
  exact hc

/-- Witness for C5's amended theorem at a concrete contained request. -/
theorem GetPathInfo_containment_of_contained_witness :
    specContained c4PathInfo.path c4PathInfo.modulePath = true :=
  GetPathInfo_containment_of_contained c4DS "m/p" "m" "v1" c4PathInfo rfl (by decide)

/-- C6: when the module fetch succeeds but no license passes the retention
test, `GetLicenses` fails with the NotFound error naming the path and the
module; and a successful `GetLicenses` never returns an empty list. -/
theorem GetLicenses_empty_notFound (ds : ProxyDataSource)
    (fullPath modulePath ver : String) :
    (∀ v, ds.getModule modulePath ver = Except.ok v →
      v.licenses.filter (licenseApplies fullPath modulePath) = [] →
      GetLicenses ds fullPath modulePath ver =
        Except.error
          { kind := ErrKind.notFound
            msg := "path " ++ fullPath ++ " is missing from module " ++ modulePath })
    ∧ (∀ lics, GetLicenses ds fullPath modulePath ver = Except.ok lics → lics ≠ []) := by
  constructor
  · intro v hv hfil
    unfold GetLicenses
    rw [hv]
    dsimp only
    rw [if_pos hfil]
  · intro lics h
    unfold GetLicenses at h
    split at h
    · simp at h
    · rename_i v heq
      dsimp only at h
      split at h
      · simp at h
      · rename_i hne
        injection h with h'
        rw [← h']
        exact hne

/-- Witness for C6: a path outside every license directory of a concrete
module yields the NotFound error naming the path and module. -/
theorem GetLicenses_empty_notFound_witness :
    GetLicenses c1DS "zzz" "m" "v1.0.0" =
      Except.error
        { kind := ErrKind.notFound
          msg := "path zzz is missing from module m" } := by
  have h := (GetLicenses_empty_notFound c1DS "zzz" "m" "v1.0.0").1 c1Module rfl rfl
  rw [h]
  rfl

def c7Dmeta : DirectoryMeta :=
  { path := "a/b", moduleInfo := { modulePath := "a", version := "v1" }, licenses := [] }

def c7GPU : String → String → String → Except Err (List PackageMeta) :=
  fun _ _ _ => Except.error { kind := ErrKind.internalError, msg := "" }

/-- Counterexample for C7: on a non-postgres data source, the invalid
`includeDirPath` combination (`dirPath = "a/b"` inside module `"a"`) reports
the Unsupported-class proxy error, not InvalidArgument. -/
theorem fetchDirectoryDetails_invalid_on_proxy :
    fetchDirectoryDetails FrontendDS.proxy c7Dmeta true =
      Except.error proxydatasourceNotSupportedErr
    ∧ proxydatasourceNotSupportedErr.kind ≠ ErrKind.invalidArgument :=
  ⟨rfl, by decide⟩

/-- C7 (amended): on the postgres-backed data source, a call with
`includeDirPath = true` whose directory path neither equals the module path
nor the standard-library pseudo-module fails with the InvalidArgument
error. -/
theorem fetchDirectoryDetails_invalidArgument
    (gpu : String → String → String → Except Err (List PackageMeta))
    (dmeta : DirectoryMeta)
    (h1 : dmeta.path ≠ dmeta.moduleInfo.modulePath)
    (h2 : dmeta.path ≠ stdlibModulePath) :
    fetchDirectoryDetails (FrontendDS.postgres gpu) dmeta true =
      Except.error
        { kind := ErrKind.invalidArgument
          msg := "includeDirPath can only be set to true if dirPath = modulePath" } := by
  simp [fetchDirectoryDetails, h1, h2]

/-- Witness for C7's amended theorem at a concrete invalid combination. -/
theorem fetchDirectoryDetails_invalidArgument_witness :
    fetchDirectoryDetails (FrontendDS.postgres c7GPU) c7Dmeta true =
      Except.error
        { kind := ErrKind.invalidArgument
          msg := "includeDirPath can only be set to true if dirPath = modulePath" } :=
  fetchDirectoryDetails_invalidArgument c7GPU c7Dmeta (by decide) (by decide)

/-- C8: when the `includeDirPath` precondition passes and `GetPackagesInUnit`
fails with a NotFound-class error, `fetchDirectoryDetails` succeeds with the
populated header and an empty package list; any non-NotFound failure is
propagated. -/
theorem fetchDirectoryDetails_notFound_empty
    (gpu : String → String → String → Except Err (List PackageMeta))
    (dmeta : DirectoryMeta) (includeDirPath : Bool)
    (hpre : (includeDirPath && (dmeta.path != dmeta.moduleInfo.modulePath)
        && (dmeta.path != stdlibModulePath)) = false) :
    (∀ e, gpu dmeta.path dmeta.moduleInfo.modulePath dmeta.moduleInfo.version = Except.error e →
      e.kind = ErrKind.notFound →
      fetchDirectoryDetails (FrontendDS.postgres gpu) dmeta includeDirPath =
        Except.ok { header := createDirectoryHeader dmeta.path dmeta.moduleInfo dmeta.licenses, packages := [] })
    ∧ (∀ e, gpu dmeta.path dmeta.moduleInfo.modulePath dmeta.moduleInfo.version = Except.error e →
      e.kind ≠ ErrKind.notFound →
      fetchDirectoryDetails (FrontendDS.postgres gpu) dmeta includeDirPath =
        Except.error e) := by
  constructor
  · intro e he hk
    simp only [fetchDirectoryDetails]
    rw [hpre]
    simp only [Bool.false_eq_true, if_false, he]
    rw [if_neg (fun hne => hne hk)]
  · intro e he hk
    simp only [fetchDirectoryDetails]
    rw [hpre]
    simp only [Bool.false_eq_true, if_false, he]
    rw [if_pos hk]

def c8Dmeta : DirectoryMeta :=
  { path := "a", moduleInfo := { modulePath := "a", version := "v1" }, licenses := [] }

def c8GPU : String → String → String → Except Err (List PackageMeta) :=
  fun _ _ _ => Except.error { kind := ErrKind.notFound, msg := "" }

/-- Witness for C8: a data source reporting NotFound for the packages of a
module root yields a header-only directory. -/
theorem fetchDirectoryDetails_notFound_empty_witness :
    fetchDirectoryDetails (FrontendDS.postgres c8GPU) c8Dmeta true =
      Except.ok { header := createDirectoryHeader c8Dmeta.path c8Dmeta.moduleInfo c8Dmeta.licenses, packages := [] } :=
  (fetchDirectoryDetails_notFound_empty c8GPU c8Dmeta true (by decide)).1
    { kind := ErrKind.notFound, msg := "" } rfl rfl

/-- C9: the package sequence of a successfully created directory consists of
the view packages of exactly the non-skipped inputs (with
`includeDirPath = false`, those whose path differs from the directory's),
sorted ascending by path. -/
theorem createDirectory_packages (dirPath : String) (mi : ModuleInfo)
    (pkgMetas : List PackageMeta) (licmetas : List LicenseMetadata)
    (includeDirPath : Bool) (d : Directory)
    (h : createDirectory dirPath mi pkgMetas licmetas includeDirPath = Except.ok d) :
    d.packages.Perm ((pkgMetas.filter (keepPackage includeDirPath dirPath)).map (buildPackage dirPath))
    ∧ List.Sorted pkgLE d.packages
    ∧ (includeDirPath = false → ∀ q ∈ d.packages, q.path ≠ dirPath) := by
  unfold createDirectory at h
  injection h with h'
  rw [← h']
  dsimp only
  refine ⟨List.perm_insertionSort pkgLE _, List.sorted_insertionSort pkgLE _, ?_⟩
  intro hfalse q hq
  have hq' := (List.perm_insertionSort pkgLE _).mem_iff.1 hq
  rcases List.mem_map.1 hq' with ⟨pm, hpm, hbuild⟩
  have hk := List.of_mem_filter hpm
  rw [hfalse] at hk
  simp only [keepPackage, Bool.false_or, bne_iff_ne, ne_eq] at hk
  have hpath : (buildPackage dirPath pm).path = pm.path := rfl
  rw [← hbuild, hpath]
  exact hk

def c9MI : ModuleInfo := { modulePath := "d", version := "v1" }

def c9Pkgs : List PackageMeta :=
  [{ path := "d/b", name := "b", synopsis := "sb" },
   { path := "d", name := "d", synopsis := "sd" },
   { path := "d/a", name := "a", synopsis := "sa" }]

/-- The directory `createDirectory "d" c9MI c9Pkgs [] false` produces. -/
def c9Dir : Directory :=
  { header := createDirectoryHeader "d" c9MI []
    packages :=
      [buildPackage "d" { path := "d/a", name := "a", synopsis := "sa" },
       buildPackage "d" { path := "d/b", name := "b", synopsis := "sb" }] }

/-- Witness for C9: the directory's own package is skipped and the remaining
two packages come out sorted by path. -/
theorem createDirectory_packages_witness :
    c9Dir.packages.Perm ((c9Pkgs.filter (keepPackage false "d")).map (buildPackage "d"))
    ∧ List.Sorted pkgLE c9Dir.packages
    ∧ (false = false → ∀ q ∈ c9Dir.packages, q.path ≠ "d") :=
  createDirectory_packages "d" c9MI c9Pkgs [] false c9Dir (by with_unfolding_all rfl)

/-- C10: with any non-postgres data source, `fetchDirectoryDetails` fails
with the Unsupported-class proxy-datasource error regardless of the other
arguments — in particular this precedes the `includeDirPath` validity
check. -/
theorem fetchDirectoryDetails_proxy_unsupported (dmeta : DirectoryMeta)
    (includeDirPath : Bool) :
    fetchDirectoryDetails FrontendDS.proxy dmeta includeDirPath =
      Except.error proxydatasourceNotSupportedErr
    ∧ proxydatasourceNotSupportedErr.kind = ErrKind.unsupported :=
  ⟨rfl, rfl⟩

end Pkgsite
